import Mathlib

/-!
Shallow embedding of the 6502 instruction-execution core of the `nes-emulator`
repository (files `src/mem.rs`, `src/stack.rs`, `src/cpu/cpu6502.rs`),
together with theorems settling the specification claims about it.

Conventions of the embedding:
* machine integers (`u8`, `u16`) become `Nat` with explicit `% 256` / `% 65536`
  reductions exactly where the Rust code wraps (`wrapping_add`, `wrapping_sub`,
  `as u8` casts); plain Rust `+` on `u16` (which does not wrap and fails on
  overflow) becomes a bounds check returning `Option`;
* the 64KB byte array `mapper` becomes a function `Nat → Nat`;
* `anyhow::Result` values that are always `Ok` in the source become plain
  values; genuinely fallible operations return `Option`;
* the opcode table and the per-operation handlers are external collaborators
  of the excerpted core (they are constructed outside it), so `clocked` takes
  them as parameters;
* the console-tracing debugger (`CpuDebugger::debug_instr`) is modelled as a
  structured observer that appends the observed instruction to a log list.
-/

namespace NesEmu

/-- Total addressable memory size in bytes (`MEMORY_MAX` from `constant.rs`,
fixed to 65536 by the 16-bit address space and the spec's required constants). -/
def MEMORY_MAX : Nat := 65536

/-- Modelled from the spec: `SP_BASE_ADDRESS` lives in `constant.rs`, which is
not part of the excerpt; the source comment in `cpu6502.rs` pins the stack page
to addresses $0100–$01FF, so the base is 0x0100. -/
def SP_BASE_ADDRESS : Nat := 0x0100

/-- Modelled from the spec: `PC_ADDRESS_RESET` lives in `constant.rs`, which is
not part of the excerpt; the spec only requires a fixed 16-bit reset-vector
location, taken here to be the standard 6502 reset vector $FFFC. -/
def PC_ADDRESS_RESET : Nat := 0xFFFC

/-- Operation identities, exactly the closed set dispatched by
`execute_instruction` in `cpu6502.rs`. -/
inductive Operation where
  | ADC | AND | ASL
  | BCC | BCS | BEQ | BIT | BMI | BNE | BPL | BRK | BVC | BVS
  | CLC | CLD | CLI | CLV | CMP | CPX | CPY
  | DEC | DEX | DEY
  | EOR
  | INC | INX | INY
  | JMP | JSR
  | LDA | LDX | LDY | LSR
  | NOP
  | ORA
  | PHA | PHP | PLA | PLP
  | ROL | ROR | RTI | RTS
  | SBC | SEC | SED | SEI | STA | STX | STY
  | TAX | TXA | TAY | TYA | TXS
  deriving DecidableEq, Repr

/-- Modelled from the spec: the addressing-mode enumeration lives outside the
excerpted files; the spec's minimum addressing-mode set (§4.4). -/
inductive AddressMode where
  | Implied | Accumulator | Immediate
  | ZeroPage | ZeroPageX | ZeroPageY
  | Absolute | AbsoluteX | AbsoluteY
  | Indirect | IndexedIndirect | IndirectIndexed
  | Relative
  deriving DecidableEq, Repr

/-- Modelled from the spec: the `CpuInstruction` struct lives outside the
excerpted files; its fields are exactly the ones `cpu6502.rs` uses
(operation identity, base cycle count, addressing mode, extra-cycle flag,
resolved operand location, raw addressing-mode argument). -/
structure CpuInstruction where
  opcode : Operation
  cycle : Nat
  address_mode : AddressMode
  extra_cycle : Bool
  write_target : Option Nat
  mode_args : Nat
  deriving DecidableEq, Repr

/-- Modelled from the spec: the `CpuRegister` struct lives outside the
excerpted files; its fields are exactly the ones `cpu6502.rs` uses: 16-bit
`pc`, 8-bit `sp`, three 8-bit general registers `a`, `x`, `y`, and six boolean
status flags. -/
structure CpuRegister where
  pc : Nat
  sp : Nat
  a : Nat
  x : Nat
  y : Nat
  carry : Bool
  zero : Bool
  interrupt_disabled : Bool
  decimal : Bool
  overflow : Bool
  negative : Bool
  deriving DecidableEq, Repr

/-- The CPU state (`struct Cpu6502`): pending-cycle counter, register file,
64KB memory array `mapper`, the most recently executed instruction, and the
debug-observation log (the injectable observer modelling `CpuDebugger`). -/
structure Cpu6502 where
  clocks_to_pause : Nat
  registers : CpuRegister
  mapper : Nat → Nat
  instr : Option CpuInstruction
  debugLog : List CpuInstruction

/-- `Default for Cpu6502`: zeroed registers and flags, zero-filled memory,
no current instruction, empty debug log. -/
def cpuDefault : Cpu6502 where
  clocks_to_pause := 0
  registers :=
    { pc := 0, sp := 0, a := 0, x := 0, y := 0,
      carry := false, zero := false, interrupt_disabled := false,
      decimal := false, overflow := false, negative := false }
  mapper := fun _ => 0
  instr := none
  debugLog := []

/-- `Cpu6502::mem_read`: addresses in [0, 0x2000) are masked to their low
11 bits before indexing (RAM mirroring); all other addresses index directly. -/
def mem_read (s : Cpu6502) (addr : Nat) : Nat :=
  if addr < 0x2000 then s.mapper (addr &&& 0b0000011111111111)
  else s.mapper addr

/-- `Cpu6502::mem_write`: indexes directly, no mirroring mask. -/
def mem_write (s : Cpu6502) (addr data : Nat) : Cpu6502 :=
  { s with mapper := fun a => if a = addr then data else s.mapper a }

/-- `Mem::mem_read_u16` (trait default in `mem.rs`): little-endian composite
read, low byte at `pos`, high byte at `pos + 1`. The Rust `pos + 1` is plain
non-wrapping `u16` addition, which fails on overflow; that failure is the
`none` branch. -/
def mem_read_u16 (s : Cpu6502) (pos : Nat) : Option Nat :=
  if pos + 1 < MEMORY_MAX then
    let lo := mem_read s pos
    let hi := mem_read s (pos + 1)
    some ((hi <<< 8) ||| lo)
  else none

/-- `Mem::mem_write_u16` (trait default in `mem.rs`): writes the low byte
(`data & 0xff`) at `pos`, then the high byte (`(data >> 8) as u8`) at
`pos + 1`; the non-wrapping `pos + 1` fails on overflow (`none`). -/
def mem_write_u16 (s : Cpu6502) (pos data : Nat) : Option Cpu6502 :=
  if pos + 1 < MEMORY_MAX then
    let hi := (data >>> 8) % 256
    let lo := data &&& 0xff
    some (mem_write (mem_write s pos lo) (pos + 1) hi)
  else none

/-- `get_sp_offset` from `stack.rs`: stack slot address is the fixed base
OR-ed with the 8-bit stack pointer. -/
def get_sp_offset (sp : Nat) : Nat :=
  SP_BASE_ADDRESS ||| sp

/-- `push_stack` (impl Stacked for Cpu6502): write the value at the current
stack-pointer slot, then decrement the pointer with 8-bit wrapping
(`wrapping_sub(1)`, that is `(sp + 255) % 256`). -/
def push_stack (s : Cpu6502) (val : Nat) : Cpu6502 :=
  let s1 := mem_write s (get_sp_offset s.registers.sp) val
  { s1 with registers := { s1.registers with sp := (s1.registers.sp + 255) % 256 } }

/-- `pop_stack` (impl Stacked for Cpu6502): increment the pointer with 8-bit
wrapping (`wrapping_add(1)`), then read from the new slot. -/
def pop_stack (s : Cpu6502) : Nat × Cpu6502 :=
  let s1 := { s with registers := { s.registers with sp := (s.registers.sp + 1) % 256 } }
  (mem_read s1 (get_sp_offset s1.registers.sp), s1)

/-- `Stacked::push_stack16` (trait default in `stack.rs`): push the high byte
`((val & 0xFF00) >> 8) as u8`, then the low byte `(val & 0xFF) as u8`. -/
def push_stack16 (s : Cpu6502) (val : Nat) : Cpu6502 :=
  let hi := (val &&& 0xFF00) >>> 8
  let lo := val &&& 0xFF
  push_stack (push_stack s hi) lo

/-- `Stacked::pop_stack16` (trait default in `stack.rs`): pop the low byte,
then the high byte, and recombine as `(hi << 8) | lo`. -/
def pop_stack16 (s : Cpu6502) : Nat × Cpu6502 :=
  let p1 := pop_stack s
  let p2 := pop_stack p1.2
  ((p2.1 <<< 8) ||| p1.1, p2.2)

/-- Pushing a whole list of bytes in order, via `push_stack`. -/
def push_list (s : Cpu6502) (l : List Nat) : Cpu6502 :=
  l.foldl push_stack s

/-- Popping `n` bytes via `pop_stack`, returning them in pop order together
with the final state. -/
def pop_list : Cpu6502 → Nat → List Nat × Cpu6502
  | s, 0 => ([], s)
  | s, n + 1 =>
    let p := pop_stack s
    let r := pop_list p.2 n
    (p.1 :: r.1, r.2)

/-- `Cpu6502::set_status_register_from_byte`: decodes the six persisted flags
from a status byte (each test is the Rust `v & mask > 0`); bits 4 and 5 are
ignored. -/
def set_status_register_from_byte (s : Cpu6502) (v : Nat) : Cpu6502 :=
  { s with registers :=
    { s.registers with
      carry := decide (v &&& 0b00000001 > 0)
      zero := decide (v &&& 0b00000010 > 0)
      interrupt_disabled := decide (v &&& 0b00000100 > 0)
      decimal := decide (v &&& 0b00001000 > 0)
      overflow := decide (v &&& 0b01000000 > 0)
      negative := decide (v &&& 0b10000000 > 0) } }

/-- `Cpu6502::status_register_byte`: encodes the status byte exactly as the
source does — carry at bit 0, zero at bit 1, interrupt-disabled at bit 2,
decimal at bit 3, the literal 0 at bit 4, `is_instruction` at bit 5, overflow
at bit 6, negative at bit 7. -/
def status_register_byte (s : Cpu6502) (is_instruction : Bool) : Nat :=
  (s.registers.carry.toNat <<< 0) |||
  (s.registers.zero.toNat <<< 1) |||
  (s.registers.interrupt_disabled.toNat <<< 2) |||
  (s.registers.decimal.toNat <<< 3) |||
  (0 <<< 4) |||
  ((if is_instruction then 1 else 0) <<< 5) |||
  (s.registers.overflow.toNat <<< 6) |||
  (s.registers.negative.toNat <<< 7)

/-- `Cpu6502::reset`: clear the current-instruction slot, zero `a` and `x`
(only those two registers), and reload the program counter from the reset
vector; the `unwrap` on the vector read is the `Option.map`. -/
def reset (s : Cpu6502) : Option Cpu6502 :=
  (mem_read_u16 s PC_ADDRESS_RESET).map fun pcv =>
    { s with
      instr := none
      registers := { s.registers with a := 0, x := 0, pc := pcv } }

/-- Reading the byte right after the opcode (operand fetch at `pc + 1`,
16-bit wrapping). -/
def read_arg8 (s : Cpu6502) : Nat :=
  mem_read s ((s.registers.pc + 1) % 65536)

/-- Reading the little-endian 16-bit operand following the opcode. -/
def read_arg16 (s : Cpu6502) : Nat :=
  (mem_read s ((s.registers.pc + 2) % 65536)) <<< 8 |||
    mem_read s ((s.registers.pc + 1) % 65536)

/-- Reading a little-endian 16-bit value at an arbitrary position through the
mirrored read path (16-bit wrapping positions). -/
def read16_at (s : Cpu6502) (p : Nat) : Nat :=
  (mem_read s ((p + 1) % 65536)) <<< 8 ||| mem_read s (p % 65536)

/-- Modelled from the spec: `decode_addressing_mode` lives outside the
excerpted files; per §4.4 it resolves an addressing mode against the current
registers and memory to an optional operand address ('none' meaning the
accumulator is the operand), a raw resolved value, and the mode's byte count
(0 for implied/accumulator, 1 for immediate / zero-page / zero-page-indexed /
indexed-indirect / indirect-indexed / relative, 2 for absolute /
absolute-indexed / indirect). -/
def decode_addressing_mode (s : Cpu6502) (m : AddressMode) : Option Nat × Nat × Nat :=
  match m with
  | .Implied => (none, 0, 0)
  | .Accumulator => (none, 0, 0)
  | .Immediate => (none, read_arg8 s, 1)
  | .ZeroPage =>
    let a := read_arg8 s
    (some a, mem_read s a, 1)
  | .ZeroPageX =>
    let a := (read_arg8 s + s.registers.x) % 256
    (some a, mem_read s a, 1)
  | .ZeroPageY =>
    let a := (read_arg8 s + s.registers.y) % 256
    (some a, mem_read s a, 1)
  | .Absolute =>
    let a := read_arg16 s
    (some a, mem_read s a, 2)
  | .AbsoluteX =>
    let a := (read_arg16 s + s.registers.x) % 65536
    (some a, mem_read s a, 2)
  | .AbsoluteY =>
    let a := (read_arg16 s + s.registers.y) % 65536
    (some a, mem_read s a, 2)
  | .Indirect =>
    let a := read16_at s (read_arg16 s)
    (some a, mem_read s a, 2)
  | .IndexedIndirect =>
    let a := read16_at s ((read_arg8 s + s.registers.x) % 256)
    (some a, mem_read s a, 1)
  | .IndirectIndexed =>
    let a := (read16_at s (read_arg8 s) + s.registers.y) % 65536
    (some a, mem_read s a, 1)
  | .Relative => (none, read_arg8 s, 1)

/-- The caller-supplied 256-entry opcode table (spec §6): each opcode byte
maps to (operation identity, addressing mode, base cycle count,
extra-cycle-on-page-cross flag). -/
def OpcodeTable : Type :=
  Nat → Operation × AddressMode × Nat × Bool

/-- `Cpu6502::decode_instruction`: look the opcode up in the table, resolve
its addressing mode, and return the resolved operand address, the raw operand
value, the total instruction byte length (`num_bytes + 1` for the opcode
byte), and a fresh `CpuInstruction`. -/
def decode_instruction (table : OpcodeTable) (s : Cpu6502) (opcode : Nat) :
    Option Nat × Nat × Nat × CpuInstruction :=
  match table opcode with
  | (op, address_mode, cycle, extra_cycle) =>
    match decode_addressing_mode s address_mode with
    | (addr, addr_value, num_bytes) =>
      (addr, addr_value, num_bytes + 1,
        { opcode := op, cycle := cycle, address_mode := address_mode,
          extra_cycle := extra_cycle, write_target := none, mode_args := 0 })

/-- The fully resolved instruction of the current step: the decoded
instruction with `mode_args` and `write_target` filled in, exactly as
`clocked` does before the BRK test. -/
def decoded_instr (table : OpcodeTable) (s : Cpu6502) : CpuInstruction :=
  match decode_instruction table s (mem_read s s.registers.pc) with
  | (addr, addr_value, _, instr0) =>
    { instr0 with mode_args := addr_value, write_target := addr }

/-- Total byte length of the instruction at the current program counter
(the decoder's `num_bytes`, already including the opcode byte). -/
def instr_num_bytes (table : OpcodeTable) (s : Cpu6502) : Nat :=
  (decode_instruction table s (mem_read s s.registers.pc)).2.2.1

/-- The debug hook (`CpuDebugger::debug_instr`), modelled as the spec's
injectable pre-mutation observer: it appends the observed instruction to the
log and changes nothing else. -/
def debug_instr (s : Cpu6502) (i : CpuInstruction) : Cpu6502 :=
  { s with debugLog := s.debugLog ++ [i] }

/-- The engine state at the moment the operation handler is dispatched:
current-instruction slot filled, debug hook invoked, and the program counter
advanced by the instruction's total byte length with 16-bit wrapping
(`wrapping_add`), in the source's order. -/
def dispatch_state (table : OpcodeTable) (s : Cpu6502) : Cpu6502 :=
  let instr := decoded_instr table s
  let s1 := { s with instr := some instr }
  let s2 := debug_instr s1 instr
  { s2 with registers :=
    { s2.registers with pc := (s2.registers.pc + instr_num_bytes table s) % 65536 } }

/-- The post-handler bookkeeping of one step: add `cycle - 1` to the pending
8-bit cycle counter with wrapping (`wrapping_add`). -/
def finish_step (s4 : Cpu6502) (i : CpuInstruction) : Cpu6502 :=
  { s4 with clocks_to_pause := (s4.clocks_to_pause + (i.cycle - 1)) % 256 }

/-- `Clocked::clocked` for `Cpu6502`, one fetch-decode-execute step.
The opcode fetch `mem_read` is total, so the `if let Ok` always matches.
If the decoded operation is `BRK`: invoke the debug hook and report halted
(`false`) with no further mutation. Otherwise: record the instruction, invoke
the debug hook, advance the program counter, dispatch to the external handler
`h`, update the pending-cycle counter, and report `true`. The per-operation
handlers of `execute_instruction` are external collaborators, passed in as
`h`. -/
def clocked (table : OpcodeTable) (h : Cpu6502 → CpuInstruction → Cpu6502)
    (s : Cpu6502) : Cpu6502 × Bool :=
  let instr := decoded_instr table s
  if instr.opcode = Operation.BRK then
    (debug_instr s instr, false)
  else
    (finish_step (h (dispatch_state table s) instr) instr, true)

/-- An all-BRK opcode table, for concrete witnesses. -/
def tableBRK : OpcodeTable :=
  fun _ => (Operation.BRK, AddressMode.Implied, 7, false)

/-- A table whose entry 0 is immediate-mode LDA, for concrete witnesses. -/
def tableLDA : OpcodeTable :=
  fun _ => (Operation.LDA, AddressMode.Immediate, 2, false)

/-- The identity handler (a handler that mutates nothing), for witnesses. -/
def hId : Cpu6502 → CpuInstruction → Cpu6502 :=
  fun st _ => st

/-! ## Arithmetic helper lemmas -/

theorem and_2047_eq_mod (a : Nat) : a &&& 2047 = a % 2048 := by
  have h := Nat.and_pow_two_sub_one_eq_mod a 11
  norm_num at h
  exact h

theorem and_2047_of_lt {a : Nat} (h : a < 2048) : a &&& 2047 = a := by
  rw [and_2047_eq_mod]
  omega

theorem and_255_eq_mod (a : Nat) : a &&& 255 = a % 256 := by
  have h := Nat.and_pow_two_sub_one_eq_mod a 8
  norm_num at h
  exact h

theorem shiftLeft8_eq (a : Nat) : a <<< 8 = a * 256 := by
  rw [Nat.shiftLeft_eq]

theorem shiftRight8_eq (a : Nat) : a >>> 8 = a / 256 := by
  rw [Nat.shiftRight_eq_div_pow]

theorem shiftLeft8_or_eq_add {b : Nat} (a : Nat) (h : b < 256) :
    (a <<< 8) ||| b = a * 256 + b := by
  have h2 : b < 2 ^ 8 := h
  have h3 := Nat.mul_add_lt_is_or h2 a
  have e : (2 : Nat) ^ 8 = 256 := by norm_num
  rw [e] at h3
  rw [shiftLeft8_eq, Nat.mul_comm a 256]
  exact h3.symm

theorem or_256_eq_add {t : Nat} (h : t < 256) : 256 ||| t = 256 + t := by
  have h2 : t < 2 ^ 8 := h
  have h3 := Nat.mul_add_lt_is_or h2 1
  have e : (2 : Nat) ^ 8 * 1 = 256 := by norm_num
  rw [e] at h3
  exact h3.symm

/-! ## Memory-access characterization lemmas -/

theorem mem_write_mapper (s : Cpu6502) (addr data a : Nat) :
    (mem_write s addr data).mapper a = if a = addr then data else s.mapper a := rfl

theorem mem_read_of_lt_2048 (s : Cpu6502) {a : Nat} (h : a < 2048) :
    mem_read s a = s.mapper a := by
  unfold mem_read
  rw [if_pos (by omega)]
  rw [show (0b0000011111111111 : Nat) = 2047 from rfl, and_2047_of_lt h]

theorem mem_read_of_ge_2000 (s : Cpu6502) {a : Nat} (h : 0x2000 ≤ a) :
    mem_read s a = s.mapper a := by
  unfold mem_read
  rw [if_neg (by omega)]

/-! ## Claim C2 -/

/-- C2: for every address a in [0, 0x2000), `mem_read` returns the byte stored
at a masked to its low 11 bits — that is, the byte at `a % 2048`, so
`mem_read a = mem_read (a % 2048)` — and for every address a ≥ 0x2000 it
returns the raw stored byte at a with no masking. -/
theorem mem_read_mirrors_low_and_raw_high (s : Cpu6502) (a : Nat) :
    (a < 0x2000 →
      mem_read s a = s.mapper (a % 2048) ∧ mem_read s a = mem_read s (a % 2048)) ∧
    (0x2000 ≤ a → a < MEMORY_MAX → mem_read s a = s.mapper a) := by
  constructor
  · intro h
    have h1 : mem_read s a = s.mapper (a % 2048) := by
      unfold mem_read
      rw [if_pos h, show (0b0000011111111111 : Nat) = 2047 from rfl, and_2047_eq_mod]
    refine ⟨h1, ?_⟩
    rw [h1, mem_read_of_lt_2048 s (a := a % 2048) (by omega)]
  · intro h _
    exact mem_read_of_ge_2000 s h

/-- Witness for C2 at the concrete addresses 0x900 (mirrored region) and
0x3000 (unmirrored region) on the default CPU. -/
theorem mem_read_mirrors_witness :
    mem_read cpuDefault 0x900 = cpuDefault.mapper (0x900 % 2048) ∧
    mem_read cpuDefault 0x900 = mem_read cpuDefault (0x900 % 2048) ∧
    mem_read cpuDefault 0x3000 = cpuDefault.mapper 0x3000 :=
  ⟨((mem_read_mirrors_low_and_raw_high cpuDefault 0x900).1 (by norm_num)).1,
   ((mem_read_mirrors_low_and_raw_high cpuDefault 0x900).1 (by norm_num)).2,
   (mem_read_mirrors_low_and_raw_high cpuDefault 0x3000).2 (by norm_num)
     (by norm_num [MEMORY_MAX])⟩

/-! ## Claim C10 -/

/-- C10: for every position up to 0xFFFE both 16-bit memory accessors succeed
(both component byte accesses are in range), while at position 0xFFFF the
non-wrapping `pos + 1` overflows the 16-bit address space and neither
accessor produces a result — there is no wrap-to-zero behavior. -/
theorem mem_u16_total_below_top (s : Cpu6502) :
    (∀ pos, pos ≤ 0xFFFE →
      (mem_read_u16 s pos).isSome ∧ ∀ v, (mem_write_u16 s pos v).isSome) ∧
    mem_read_u16 s 0xFFFF = none ∧ ∀ v, mem_write_u16 s 0xFFFF v = none := by
  refine ⟨fun pos hp => ⟨?_, fun v => ?_⟩, ?_, fun v => ?_⟩
  · unfold mem_read_u16
    rw [if_pos (by simp only [MEMORY_MAX]; omega)]
    rfl
  · unfold mem_write_u16
    rw [if_pos (by simp only [MEMORY_MAX]; omega)]
    rfl
  · unfold mem_read_u16
    rw [if_neg (by simp only [MEMORY_MAX]; omega)]
  · unfold mem_write_u16
    rw [if_neg (by simp only [MEMORY_MAX]; omega)]

/-- Witness for C10 at position 0xFFFE (in range) on the default CPU,
alongside the closed overflow cases at 0xFFFF. -/
theorem mem_u16_total_witness :
    (mem_read_u16 cpuDefault 0xFFFE).isSome ∧
    (mem_write_u16 cpuDefault 0xFFFE 0xABCD).isSome ∧
    mem_read_u16 cpuDefault 0xFFFF = none ∧
    mem_write_u16 cpuDefault 0xFFFF 0xABCD = none :=
  ⟨((mem_u16_total_below_top cpuDefault).1 0xFFFE (by norm_num)).1,
   ((mem_u16_total_below_top cpuDefault).1 0xFFFE (by norm_num)).2 0xABCD,
   (mem_u16_total_below_top cpuDefault).2.1,
   (mem_u16_total_below_top cpuDefault).2.2 0xABCD⟩

/-! ## Claim C1 -/

/-- C1 counterexample: at position p = 0x800 (inside the mirrored region
[0, 0x2000) but above the physical 2KB bank) with value v = 1 on the default
(zero-filled) CPU, `mem_write_u16` followed by `mem_read_u16` does NOT return
the written value: the write lands physically at 0x800/0x801 while the
mirrored read fetches 0x000/0x001, yielding 0. -/
theorem write16_read16_mirror_counterexample :
    (mem_write_u16 cpuDefault 0x800 1).bind (fun s => mem_read_u16 s 0x800) ≠
      some 1 := by
  decide

/-- C1 (amended): for every position p ≤ 0xFFFE and 16-bit value v,
`mem_write_u16 p v` stores the low byte physically at p and the high byte at
p + 1 (writes index directly, with no mirroring mask); and whenever the two
read-path addresses coincide with the two written cells — that is, for
p ≤ 0x7FE (inside the physical 2KB bank, where the mirror mask is the
identity) or p ≥ 0x2000 (no mask) — `mem_read_u16 p` then returns v.
For p in [0x7FF, 0x1FFF] the masked read path diverges from the unmasked
write path and the roundtrip fails in general. -/
theorem write16_read16_roundtrip (s : Cpu6502) (p v : Nat)
    (hv : v < 65536) (hp : p ≤ 0xFFFE) :
    ∃ s', mem_write_u16 s p v = some s' ∧
      s'.mapper p = v % 256 ∧ s'.mapper (p + 1) = v / 256 ∧
      ((p ≤ 0x7FE ∨ 0x2000 ≤ p) → mem_read_u16 s' p = some v) := by
  have hlo : v &&& 0xff = v % 256 := and_255_eq_mod v
  have hhi : (v >>> 8) % 256 = v / 256 := by
    rw [shiftRight8_eq]
    omega
  unfold mem_write_u16
  rw [if_pos (by simp only [MEMORY_MAX]; omega)]
  refine ⟨_, rfl, ?_, ?_, ?_⟩
  · rw [mem_write_mapper, if_neg (by omega), mem_write_mapper, if_pos rfl]
    exact hlo
  · rw [mem_write_mapper, if_pos rfl]
    exact hhi
  · intro hrange
    have hmap_p :
        (mem_write (mem_write s p (v &&& 0xff)) (p + 1) ((v >>> 8) % 256)).mapper p
          = v % 256 := by
      rw [mem_write_mapper, if_neg (by omega), mem_write_mapper, if_pos rfl]
      exact hlo
    have hmap_p1 :
        (mem_write (mem_write s p (v &&& 0xff)) (p + 1) ((v >>> 8) % 256)).mapper (p + 1)
          = v / 256 := by
      rw [mem_write_mapper, if_pos rfl]
      exact hhi
    unfold mem_read_u16
    rw [if_pos (by simp only [MEMORY_MAX]; omega)]
    have hread_lo : mem_read (mem_write (mem_write s p (v &&& 0xff)) (p + 1)
        ((v >>> 8) % 256)) p = v % 256 := by
      rcases hrange with hlow | hhigh
      · rw [mem_read_of_lt_2048 _ (by omega)]
        exact hmap_p
      · rw [mem_read_of_ge_2000 _ hhigh]
        exact hmap_p
    have hread_hi : mem_read (mem_write (mem_write s p (v &&& 0xff)) (p + 1)
        ((v >>> 8) % 256)) (p + 1) = v / 256 := by
      rcases hrange with hlow | hhigh
      · rw [mem_read_of_lt_2048 _ (by omega)]
        exact hmap_p1
      · rw [mem_read_of_ge_2000 _ (by omega)]
        exact hmap_p1
    have hfin :
        (mem_read (mem_write (mem_write s p (v &&& 0xff)) (p + 1)
            ((v >>> 8) % 256)) (p + 1)) <<< 8 |||
          mem_read (mem_write (mem_write s p (v &&& 0xff)) (p + 1)
            ((v >>> 8) % 256)) p = v := by
      rw [hread_lo, hread_hi, shiftLeft8_or_eq_add _ (by omega)]
      omega
    exact congrArg some hfin

/-! ## Stack helper lemmas -/

theorem and_shiftRight_distrib (a b : Nat) : ∀ k, (a &&& b) >>> k = (a >>> k) &&& (b >>> k)
  | 0 => rfl
  | k + 1 => by
    rw [Nat.shiftRight_succ, Nat.shiftRight_succ, Nat.shiftRight_succ,
      and_shiftRight_distrib a b k, Nat.and_div_two]

theorem get_sp_offset_eq {t : Nat} (h : t < 256) : get_sp_offset t = 256 + t := by
  unfold get_sp_offset SP_BASE_ADDRESS
  exact or_256_eq_add h

theorem mem_read_eq_of_mapper (s1 s2 : Cpu6502) (h : s1.mapper = s2.mapper) (a : Nat) :
    mem_read s1 a = mem_read s2 a := by
  unfold mem_read
  rw [h]

theorem mem_read_stack (s : Cpu6502) {t : Nat} (h : t < 256) :
    mem_read s (get_sp_offset t) = s.mapper (256 + t) := by
  rw [get_sp_offset_eq h, mem_read_of_lt_2048 s (by omega)]

theorem push_stack_mapper (s : Cpu6502) (val a : Nat) :
    (push_stack s val).mapper a =
      if a = get_sp_offset s.registers.sp then val else s.mapper a := rfl

theorem push_stack_sp (s : Cpu6502) (val : Nat) :
    (push_stack s val).registers.sp = (s.registers.sp + 255) % 256 := rfl

theorem pop_stack_val (s : Cpu6502) :
    (pop_stack s).1 = mem_read s (get_sp_offset ((s.registers.sp + 1) % 256)) := rfl

theorem pop_stack_sp (s : Cpu6502) :
    (pop_stack s).2.registers.sp = (s.registers.sp + 1) % 256 := rfl

theorem pop_stack_mapper (s : Cpu6502) :
    (pop_stack s).2.mapper = s.mapper := rfl

theorem push_list_cons (s : Cpu6502) (a : Nat) (l : List Nat) :
    push_list s (a :: l) = push_list (push_stack s a) l := rfl

theorem pop_list_mapper : ∀ (n : Nat) (s : Cpu6502), (pop_list s n).2.mapper = s.mapper
  | 0, _ => rfl
  | n + 1, s => by
    show (pop_list (pop_stack s).2 n).2.mapper = s.mapper
    rw [pop_list_mapper n (pop_stack s).2, pop_stack_mapper]

theorem pop_list_succ : ∀ (n : Nat) (s : Cpu6502),
    pop_list s (n + 1) =
      ((pop_list s n).1 ++ [(pop_stack (pop_list s n).2).1],
        (pop_stack (pop_list s n).2).2)
  | 0, _ => rfl
  | n + 1, s => by
    show ((pop_stack s).1 :: (pop_list (pop_stack s).2 (n + 1)).1,
        (pop_list (pop_stack s).2 (n + 1)).2) = _
    rw [pop_list_succ n (pop_stack s).2]
    rfl

theorem pop_list_succ_fst (n : Nat) (s : Cpu6502) :
    (pop_list s (n + 1)).1 =
      (pop_list s n).1 ++ [(pop_stack (pop_list s n).2).1] := by
  rw [pop_list_succ]

theorem pop_list_succ_snd (n : Nat) (s : Cpu6502) :
    (pop_list s (n + 1)).2 = (pop_stack (pop_list s n).2).2 := by
  rw [pop_list_succ]

theorem push_list_mapper_untouched : ∀ (l : List Nat) (s : Cpu6502) (t : Nat),
    t < 256 → s.registers.sp < 256 →
    l.length ≤ (s.registers.sp + 256 - t) % 256 →
    (push_list s l).mapper (256 + t) = s.mapper (256 + t)
  | [], _, _, _, _, _ => rfl
  | a :: l, s, t, ht, hsp, hlen => by
    have hlen' : l.length + 1 ≤ (s.registers.sp + 256 - t) % 256 := by
      simpa using hlen
    have hne : 256 + t ≠ get_sp_offset s.registers.sp := by
      rw [get_sp_offset_eq hsp]
      omega
    rw [push_list_cons]
    rw [push_list_mapper_untouched l (push_stack s a) t ht
      (by rw [push_stack_sp]; omega)
      (by rw [push_stack_sp]; omega)]
    rw [push_stack_mapper, if_neg hne]

/-- Witness for C1 (amended) at p = 0x2000, v = 0xABCD on the default CPU. -/
theorem write16_read16_roundtrip_witness :
    ∃ s', mem_write_u16 cpuDefault 0x2000 0xABCD = some s' ∧
      s'.mapper 0x2000 = 0xABCD % 256 ∧ s'.mapper (0x2000 + 1) = 0xABCD / 256 ∧
      ((0x2000 ≤ 0x7FE ∨ 0x2000 ≤ 0x2000) →
        mem_read_u16 s' 0x2000 = some 0xABCD) :=
  write16_read16_roundtrip cpuDefault 0x2000 0xABCD (by norm_num) (by norm_num)

/-! ## Claim C6 -/

/-- C6: for every 16-bit value v and every initial stack-pointer value,
`push_stack16 v` followed by `pop_stack16` returns v: push16 pushes the high
byte then the low byte, pop16 pops the low byte then the high byte and
recombines them as high-shifted-left-8 OR low. -/
theorem push16_pop16_roundtrip (s : Cpu6502) (v : Nat)
    (hv : v < 65536) (hsp : s.registers.sp < 256) :
    (pop_stack16 (push_stack16 s v)).1 = v := by
  have h255 : (s.registers.sp + 255) % 256 < 256 := Nat.mod_lt _ (by omega)
  have e1 : (pop_stack16 (push_stack16 s v)).1 =
      ((pop_stack (pop_stack (push_stack16 s v)).2).1 <<< 8) |||
        (pop_stack (push_stack16 s v)).1 := rfl
  have hsp2 : (push_stack16 s v).registers.sp =
      ((s.registers.sp + 255) % 256 + 255) % 256 := rfl
  have e2 : (pop_stack (push_stack16 s v)).1 = v &&& 0xFF := by
    rw [pop_stack_val, hsp2,
      show ((((s.registers.sp + 255) % 256 + 255) % 256) + 1) % 256 =
        (s.registers.sp + 255) % 256 from by omega,
      mem_read_stack _ h255]
    show (push_stack (push_stack s ((v &&& 0xFF00) >>> 8)) (v &&& 0xFF)).mapper
        (256 + (s.registers.sp + 255) % 256) = v &&& 0xFF
    rw [push_stack_mapper,
      if_pos (by rw [push_stack_sp, get_sp_offset_eq h255])]
  have e3 : (pop_stack (pop_stack (push_stack16 s v)).2).1 =
      (v &&& 0xFF00) >>> 8 := by
    rw [pop_stack_val, pop_stack_sp, hsp2,
      show (((((s.registers.sp + 255) % 256 + 255) % 256) + 1) % 256 + 1) % 256 =
        s.registers.sp from by omega,
      mem_read_eq_of_mapper _ (push_stack16 s v) (pop_stack_mapper _) _,
      mem_read_stack _ hsp]
    show (push_stack (push_stack s ((v &&& 0xFF00) >>> 8)) (v &&& 0xFF)).mapper
        (256 + s.registers.sp) = (v &&& 0xFF00) >>> 8
    rw [push_stack_mapper,
      if_neg (by rw [push_stack_sp, get_sp_offset_eq h255]; omega)]
    show (push_stack s ((v &&& 0xFF00) >>> 8)).mapper (256 + s.registers.sp) = _
    rw [push_stack_mapper, if_pos (get_sp_offset_eq hsp).symm]
  have hhi : (v &&& 0xFF00) >>> 8 = v / 256 := by
    rw [and_shiftRight_distrib v 0xFF00 8,
      show (0xFF00 : Nat) >>> 8 = 255 from rfl,
      and_255_eq_mod, shiftRight8_eq]
    omega
  rw [e1, e2, e3, hhi, and_255_eq_mod, shiftLeft8_or_eq_add _ (by omega)]
  omega

/-- Witness for C6 at v = 0xBEEF with the stack pointer at 0 (so both pushes
wrap across the 0/255 boundary) on the default CPU. -/
theorem push16_pop16_roundtrip_witness :
    (pop_stack16 (push_stack16 cpuDefault 0xBEEF)).1 = 0xBEEF :=
  push16_pop16_roundtrip cpuDefault 0xBEEF (by norm_num) (by norm_num [cpuDefault])

/-! ## Claim C5 -/

/-- C5 (amended): for every sequence of at most 256 bytes and every initial
8-bit stack-pointer value (including values where the pointer wraps across
the 0/255 boundary), pushing the bytes with `push_stack` and then popping
that many times with `pop_stack` yields the bytes in exact reverse order and
restores the stack pointer to its initial value. With more than 256 bytes the
wrapping pointer makes later pushes overwrite earlier slots in the single
256-byte stack page, so the popped sequence is no longer the exact reverse. -/
theorem push_pop_reverse (l : List Nat) (s : Cpu6502)
    (hlen : l.length ≤ 256) (hsp : s.registers.sp < 256) :
    (pop_list (push_list s l) l.length).1 = l.reverse ∧
    (pop_list (push_list s l) l.length).2.registers.sp = s.registers.sp := by
  induction l generalizing s with
  | nil => exact ⟨rfl, rfl⟩
  | cons a l ih =>
    have hlen' : l.length ≤ 255 := by
      simp only [List.length_cons] at hlen
      omega
    have hsp1lt : (push_stack s a).registers.sp < 256 := by
      rw [push_stack_sp]
      omega
    obtain ⟨ih1, ih2⟩ := ih (push_stack s a) (by omega) hsp1lt
    have ih2' : (pop_list (push_list (push_stack s a) l) l.length).2.registers.sp =
        (s.registers.sp + 255) % 256 :=
      ih2.trans (push_stack_sp s a)
    have hv : (pop_stack (pop_list (push_list (push_stack s a) l) l.length).2).1 = a := by
      rw [pop_stack_val, ih2',
        show (((s.registers.sp + 255) % 256) + 1) % 256 = s.registers.sp from by omega,
        mem_read_eq_of_mapper _ (push_list (push_stack s a) l)
          (pop_list_mapper _ _) _,
        mem_read_stack _ hsp,
        push_list_mapper_untouched l (push_stack s a) s.registers.sp hsp
          (by rw [push_stack_sp]; omega)
          (by rw [push_stack_sp]; omega),
        push_stack_mapper, if_pos (get_sp_offset_eq hsp).symm]
    have key1 : (pop_list (push_list (push_stack s a) l) (l.length + 1)).1 =
        (a :: l).reverse := by
      rw [pop_list_succ_fst, ih1, hv, List.reverse_cons]
    have key2 : (pop_list (push_list (push_stack s a) l) (l.length + 1)).2.registers.sp =
        s.registers.sp := by
      rw [pop_list_succ_snd, pop_stack_sp, ih2']
      omega
    exact ⟨key1, key2⟩

/-- Witness for C5 (amended): three bytes pushed with the stack pointer at 1,
so the pushes wrap across the 0/255 boundary, on the default CPU. -/
theorem push_pop_reverse_witness :
    (pop_list (push_list { cpuDefault with
        registers := { cpuDefault.registers with sp := 1 } } [7, 9, 11]) 3).1 =
      [11, 9, 7] ∧
    (pop_list (push_list { cpuDefault with
        registers := { cpuDefault.registers with sp := 1 } } [7, 9, 11]) 3).2.registers.sp = 1 :=
  push_pop_reverse [7, 9, 11]
    { cpuDefault with registers := { cpuDefault.registers with sp := 1 } }
    (by norm_num) (by norm_num)

set_option maxRecDepth 100000 in
/-- C5 counterexample: 257 pushed bytes are one more than the 256-byte stack
page holds, so the last push overwrites the slot of the first byte and the
257 popped bytes are not the exact reverse of the pushed sequence. -/
theorem push_pop_reverse_counterexample :
    (pop_list (push_list cpuDefault (1 :: List.replicate 256 0))
        (1 :: List.replicate 256 0).length).1 ≠
      (1 :: List.replicate 256 0).reverse := by
  decide

/-! ## Claim C3 -/

/-- C3: evaluation of `status_register_byte` at the failing input (all six
flags false). The source hardwires bit 4 (its own comment labels it the break
flag) to 0 and shifts the break-context argument into bit 5 instead, so with
context true the byte is 0x20 with bit 4 clear, and with context false bit 5
is clear — contradicting the documented layout (bit 4 = break context,
bit 5 always 1). -/
theorem status_byte_bits45_eval :
    status_register_byte cpuDefault true = 0x20 ∧
    Nat.testBit (status_register_byte cpuDefault true) 4 = false ∧
    status_register_byte cpuDefault false = 0 ∧
    Nat.testBit (status_register_byte cpuDefault false) 5 = false := by
  decide

/-! ## Claim C4 -/

/-- C4: for every combination of the six persisted flags and for both values
of the context argument, encoding the status byte with
`status_register_byte ctx` and then decoding it with
`set_status_register_from_byte` restores exactly the same six boolean flag
values (indeed the whole state), independent of ctx. -/
theorem status_byte_roundtrip (s : Cpu6502) (ctx : Bool) :
    set_status_register_from_byte s (status_register_byte s ctx) = s := by
  obtain ⟨cl, ⟨pc, sp, a, x, y, c, z, i, d, o, n⟩, mp, ins, lg⟩ := s
  cases c <;> cases z <;> cases i <;> cases d <;> cases o <;> cases n <;>
    cases ctx <;>
    simp [set_status_register_from_byte, status_register_byte] <;> decide

/-! ## Claim C9 -/

/-- C9: for every engine state, `reset` clears the last-executed-instruction
slot, zeroes exactly the accumulator `a` and the index register `x`, leaves
the third general register `y`, the stack pointer, and all six status flags
(and everything else: memory, pending-cycle counter, debug log) unchanged,
and sets the program counter to the 16-bit little-endian value read from the
fixed reset-vector location. -/
theorem reset_spec (s : Cpu6502) :
    ∃ pcv, mem_read_u16 s PC_ADDRESS_RESET = some pcv ∧
      reset s = some { s with
        instr := none
        registers := { s.registers with a := 0, x := 0, pc := pcv } } := by
  refine ⟨(mem_read s (PC_ADDRESS_RESET + 1)) <<< 8 ||| mem_read s PC_ADDRESS_RESET,
    ?_, ?_⟩
  · unfold mem_read_u16
    rw [if_pos (by norm_num [PC_ADDRESS_RESET, MEMORY_MAX])]
  · unfold reset mem_read_u16
    rw [if_pos (by norm_num [PC_ADDRESS_RESET, MEMORY_MAX])]
    rfl

/-! ## Claim C7 -/

/-- C7: for every engine state in which the byte at the program counter
decodes to the software-break operation BRK, a single `clocked` step invokes
the debug hook (appends the resolved instruction to the observation log) and
reports halted (`false`), leaving the program counter, all registers and
flags, the entire memory array, the pending-cycle counter, and the
last-executed-instruction slot unchanged, with no handler dispatched (the
result is the same for every handler `h`). -/
theorem clocked_brk_halts (table : OpcodeTable) (s : Cpu6502)
    (hbrk : (decoded_instr table s).opcode = Operation.BRK)
    (h : Cpu6502 → CpuInstruction → Cpu6502) :
    clocked table h s = (debug_instr s (decoded_instr table s), false) ∧
    (clocked table h s).1.registers = s.registers ∧
    (clocked table h s).1.mapper = s.mapper ∧
    (clocked table h s).1.clocks_to_pause = s.clocks_to_pause ∧
    (clocked table h s).1.instr = s.instr ∧
    (clocked table h s).1.debugLog = s.debugLog ++ [decoded_instr table s] ∧
    (clocked table h s).2 = false := by
  have he : clocked table h s = (debug_instr s (decoded_instr table s), false) := by
    show (if (decoded_instr table s).opcode = Operation.BRK then
        (debug_instr s (decoded_instr table s), false)
      else
        (finish_step (h (dispatch_state table s) (decoded_instr table s))
          (decoded_instr table s), true)) =
      (debug_instr s (decoded_instr table s), false)
    rw [if_pos hbrk]
  refine ⟨he, ?_, ?_, ?_, ?_, ?_, ?_⟩ <;> rw [he] <;> rfl

/-- Witness for C7: an opcode table whose every entry is BRK, the identity
handler, and the default CPU. -/
theorem clocked_brk_halts_witness :
    clocked tableBRK hId cpuDefault =
      (debug_instr cpuDefault (decoded_instr tableBRK cpuDefault), false) :=
  (clocked_brk_halts tableBRK cpuDefault (by decide) hId).1

/-! ## Claim C8 -/

/-- C8: for every step whose decoded operation is not BRK, the program
counter of the state handed to the operation handler equals the fetch-time
program counter plus the instruction's total byte length — the addressing
mode's byte count plus 1 for the opcode byte — computed with wrapping 16-bit
arithmetic, and `clocked` dispatches the handler on exactly that already
advanced state (the advance happens strictly before the handler runs). -/
theorem clocked_pc_advanced_before_dispatch (table : OpcodeTable)
    (h : Cpu6502 → CpuInstruction → Cpu6502) (s : Cpu6502)
    (hne : (decoded_instr table s).opcode ≠ Operation.BRK) :
    (dispatch_state table s).registers.pc =
      (s.registers.pc +
        ((decode_addressing_mode s
          (table (mem_read s s.registers.pc)).2.1).2.2 + 1)) % 65536 ∧
    clocked table h s =
      (finish_step (h (dispatch_state table s) (decoded_instr table s))
        (decoded_instr table s), true) := by
  constructor
  · rfl
  · show (if (decoded_instr table s).opcode = Operation.BRK then
        (debug_instr s (decoded_instr table s), false)
      else
        (finish_step (h (dispatch_state table s) (decoded_instr table s))
          (decoded_instr table s), true)) = _
    rw [if_neg hne]

/-- Witness for C8: a table whose entry for opcode 0 is immediate-mode LDA,
the identity handler, and the default CPU (program counter 0). -/
theorem clocked_pc_advanced_witness :
    (dispatch_state tableLDA cpuDefault).registers.pc =
      (cpuDefault.registers.pc +
        ((decode_addressing_mode cpuDefault
          (tableLDA (mem_read cpuDefault cpuDefault.registers.pc)).2.1).2.2 + 1)) % 65536 ∧
    clocked tableLDA hId cpuDefault =
      (finish_step (hId (dispatch_state tableLDA cpuDefault)
        (decoded_instr tableLDA cpuDefault)) (decoded_instr tableLDA cpuDefault), true) :=
  clocked_pc_advanced_before_dispatch tableLDA hId cpuDefault (by decide)

end NesEmu
